import Mathlib

/-!
Verification of the Section Anchor & Merge Engine of the obsidian_automation
repository. Documents are modelled as lists of characters; the Python string
operations used by the source (substring search, slicing, `str.split`,
`re.search`/`re.sub` with the concrete patterns appearing in the code,
`datetime.date.fromisocalendar`) are embedded as executable Lean functions.
-/

namespace ObsidianAutomation

/-- A document is its text, one character at a time (Python `str`). -/
abbrev Doc := List Char

/-- Python whitespace (the set matched by `\s` on `str`, also used by
`str.strip()`, `str.isspace()` and `int()`): ASCII whitespace, the
file/group/record/unit separators, NEL, NBSP and the Unicode space
characters. -/
def isPySpace (c : Char) : Bool :=
  let n := c.toNat
  (9 ≤ n && n ≤ 13) || n == 32 || (28 ≤ n && n ≤ 31) || n == 0x85 ||
    n == 0xA0 || n == 0x1680 || (0x2000 ≤ n && n ≤ 0x200A) || n == 0x2028 ||
    n == 0x2029 || n == 0x202F || n == 0x205F || n == 0x3000

/-- Python `s.strip()`: remove leading and trailing whitespace. -/
def stripL (l : Doc) : Doc :=
  ((l.dropWhile isPySpace).reverse.dropWhile isPySpace).reverse

/-- Index of the first occurrence of `needle` in the suffix of the haystack,
counting from `i` (helper for `firstIdx`). -/
def firstIdxAux (needle : Doc) : Doc → Nat → Option Nat
  | [], i => if needle.isEmpty then some i else none
  | c :: t, i =>
    if needle.isPrefixOf (c :: t) then some i else firstIdxAux needle t (i + 1)

/-- Index of the first occurrence of `needle` in `hay` (Python `str.find`;
`needle in hay` is `(firstIdx needle hay).isSome`). -/
def firstIdx (needle hay : Doc) : Option Nat :=
  firstIdxAux needle hay 0

/-!
The upsert helper of `daily_pipeline.py` (lines 239-246 and 291-297):

    pattern = re.compile(f"( re.escape(header) ).*?(?=\n## |$)", re.DOTALL)
    replacement = f"header\nbody\n"
    if pattern.search(content):
        content = pattern.sub(replacement, content, count=1)
    else:
        content += f"\n\nreplacement"

With `re.DOTALL` and without `re.MULTILINE`, `.` matches every character and
`$` matches at the end of the string or just before a final newline.  The
match therefore starts at the first occurrence of the header anywhere in the
document and, since `.*?` is lazy, ends at the earliest position at which
either the four characters newline-hash-hash-space follow, or the position is
the end of the string, or only a final newline remains.
-/

/-- The delimiter looked ahead for by the section pattern ("\n## "). -/
def nlHH : Doc := ['\n', '#', '#', ' ']

/-- Whether the lookahead of the section regex succeeds at position `p` of
`content`: either "\n## " follows, or `p` is the end of the string, or `p` is
just before a final newline (Python `$` without `re.MULTILINE`). -/
def lookaheadOK (content : Doc) (p : Nat) : Bool :=
  nlHH.isPrefixOf (content.drop p) || p == content.length ||
    content.drop p == ['\n']

/-- Scan forward from position `p` for the first position at which the
lookahead succeeds (the lazy `.*?` stops as early as possible).  `fuel` bounds
the scan; `matchEnd` supplies enough fuel to reach the end of the string,
where the lookahead always succeeds. -/
def scanEnd (content : Doc) : Nat → Nat → Nat
  | p, 0 => p
  | p, Nat.succ fuel =>
    if lookaheadOK content p then p else scanEnd content (p + 1) fuel

/-- End position of the regex match that starts at `start` (one past the
matched header): the earliest position at or after `start` at which the
lookahead succeeds. -/
def matchEnd (content : Doc) (start : Nat) : Nat :=
  scanEnd content start (content.length + 1 - start)

/-- Characters Python's replacement-template parser accepts after a
backslash as a letter escape (`re._parser.ESCAPES`). -/
def escChar : Char → Option Char
  | 'a' => some (Char.ofNat 7)
  | 'b' => some (Char.ofNat 8)
  | 'f' => some (Char.ofNat 12)
  | 'n' => some '\n'
  | 'r' => some (Char.ofNat 13)
  | 't' => some '\t'
  | 'v' => some (Char.ofNat 11)
  | '\\' => some '\\'
  | _ => none

/-- Octal digit test for template escapes. -/
def isOctDigit (c : Char) : Bool := '0' ≤ c && c ≤ '7'

/-- Numeric value of a decimal digit character. -/
def digVal (c : Char) : Nat := c.toNat - 48

/-- Expansion of a `re.sub` replacement template (`re._parser.parse_template`)
against a match of the upsert pattern, whose single group 1 captured `g1` and
whose whole match (group 0) was `g0`.  Backslash escapes are interpreted:
group references `\1` and `\g<...>`, octal escapes, the letter escapes of
`escChar`; an unknown letter escape or an out-of-range group reference is an
error (`none`, Python raises); a backslash before any other character is kept
literally.  `fuel` bounds the recursion; callers pass the template's length,
which suffices because every step consumes at least one character. -/
def expandTemplateFuel (g0 g1 : Doc) : Nat → Doc → Option Doc
  | _, [] => some []
  | 0, _ :: _ => none
  | Nat.succ fuel, c :: rest =>
    if c ≠ '\\' then (c :: ·) <$> expandTemplateFuel g0 g1 fuel rest
    else
      match rest with
      | [] => none
      | 'g' :: rest2 =>
        match rest2 with
        | '<' :: rest3 =>
          let name := rest3.takeWhile (· ≠ '>')
          match rest3.drop name.length with
          | '>' :: rest4 =>
            if name ≠ [] && name.all Char.isDigit then
              let n := name.foldl (fun a c => a * 10 + digVal c) 0
              if n == 0 then (g0 ++ ·) <$> expandTemplateFuel g0 g1 fuel rest4
              else if n == 1 then
                (g1 ++ ·) <$> expandTemplateFuel g0 g1 fuel rest4
              else none
            else none
          | _ => none
        | _ => none
      | '0' :: rest2 =>
        match rest2 with
        | d2 :: rest3 =>
          if isOctDigit d2 then
            match rest3 with
            | d3 :: rest4 =>
              if isOctDigit d3 then
                (Char.ofNat ((digVal d2 * 8 + digVal d3) % 256) :: ·) <$>
                  expandTemplateFuel g0 g1 fuel rest4
              else
                (Char.ofNat (digVal d2) :: ·) <$>
                  expandTemplateFuel g0 g1 fuel rest3
            | [] =>
              (Char.ofNat (digVal d2) :: ·) <$>
                expandTemplateFuel g0 g1 fuel rest3
          else (Char.ofNat 0 :: ·) <$> expandTemplateFuel g0 g1 fuel rest2
        | [] => (Char.ofNat 0 :: ·) <$> expandTemplateFuel g0 g1 fuel rest2
      | d1 :: rest2 =>
        if d1.isDigit then
          match rest2 with
          | d2 :: rest3 =>
            if d2.isDigit then
              if isOctDigit d1 && isOctDigit d2 then
                match rest3 with
                | d3 :: rest4 =>
                  if isOctDigit d3 then
                    (Char.ofNat
                        ((digVal d1 * 64 + digVal d2 * 8 + digVal d3) % 256)
                        :: ·) <$> expandTemplateFuel g0 g1 fuel rest4
                  else if digVal d1 * 10 + digVal d2 == 1 then
                    (g1 ++ ·) <$> expandTemplateFuel g0 g1 fuel rest3
                  else none
                | [] =>
                  if digVal d1 * 10 + digVal d2 == 1 then
                    (g1 ++ ·) <$> expandTemplateFuel g0 g1 fuel rest3
                  else none
              else if digVal d1 * 10 + digVal d2 == 1 then
                (g1 ++ ·) <$> expandTemplateFuel g0 g1 fuel rest3
              else none
            else if digVal d1 == 1 then
              (g1 ++ ·) <$> expandTemplateFuel g0 g1 fuel rest2
            else none
          | [] =>
            if digVal d1 == 1 then
              (g1 ++ ·) <$> expandTemplateFuel g0 g1 fuel rest2
            else none
        else
          match escChar d1 with
          | some e => (e :: ·) <$> expandTemplateFuel g0 g1 fuel rest2
          | none =>
            if d1.isAlpha then none
            else
              (fun l => '\\' :: d1 :: l) <$>
                expandTemplateFuel g0 g1 fuel rest2

/-- Expansion of a replacement template (fuel instantiated). -/
def expandTemplate (g0 g1 tmpl : Doc) : Option Doc :=
  expandTemplateFuel g0 g1 tmpl.length tmpl

/-- The upsert helper of `daily_pipeline.py`: replace the section of `h` if
the pattern matches (the first occurrence of `h` anywhere in `content`, up to
`matchEnd`), interpreting the replacement `h ++ "\n" ++ b ++ "\n"` as a
`re.sub` template; otherwise append a blank line, the header line and the
body verbatim.  `none` models the `re.error` raised on a bad escape in the
template. -/
def upsert (content h b : Doc) : Option Doc :=
  match firstIdx h content with
  | some s =>
    let e := matchEnd content (s + h.length)
    let g0 := (content.drop s).take (e - s)
    match expandTemplate g0 h (h ++ '\n' :: (b ++ ['\n'])) with
    | some repl => some (content.take s ++ repl ++ content.drop e)
    | none => none
  | none => some (content ++ '\n' :: '\n' :: (h ++ '\n' :: (b ++ ['\n'])))

/-!
`get_section` of `weekly_review.py` (lines 115-132): membership test by plain
substring search, `text.split(header)` and `parts[1]` (the text between the
first and the second occurrence of the header, or everything after the first
occurrence when it is unique), then a line scan that skips blank lines, stops
at the first line starting with "## ", and strips the joined result.
-/

/-- Python `text.split('\n')`. -/
def splitLines : Doc → List Doc
  | [] => [[]]
  | c :: t =>
    if c = '\n' then [] :: splitLines t
    else
      match splitLines t with
      | [] => [[c]]
      | l :: ls => (c :: l) :: ls

/-- Python `'\n'.join(ls)`. -/
def joinNl : List Doc → Doc
  | [] => []
  | [l] => l
  | l :: ls => l ++ '\n' :: joinNl ls

/-- The two-character header marker plus the following space ("## "). -/
def hhSp : Doc := ['#', '#', ' ']

/-- The line loop of `get_section`: skip lines that are blank after
stripping, stop at the first line starting with "## ", keep the rest. -/
def collectLines : List Doc → List Doc
  | [] => []
  | l :: ls =>
    if stripL l = [] then collectLines ls
    else if hhSp.isPrefixOf l then []
    else l :: collectLines ls

/-- `get_section` of `weekly_review.py`. -/
def get_section (text header : Doc) : Doc :=
  match firstIdx header text with
  | none => []
  | some i =>
    let tail := text.drop (i + header.length)
    let sect :=
      match firstIdx header tail with
      | none => tail
      | some j => tail.take j
    stripL (joinNl (collectLines (splitLines sect)))

/-!
`extract_section` of `daily_pipeline.py` (lines 85-127): for each of the four
labels, the first match of the pattern `#\s*k` (a hash, any run of
whitespace, the digit of the label); the present labels are sorted by offset
and the requested label's segment runs from its offset to the next label's
offset (or the end of the text), then is stripped.
-/

/-- The four extraction labels, in the insertion order of `pattern_map`. -/
inductive SecLabel
  | scan
  | emotion
  | gratitude
  | step
deriving DecidableEq

/-- The digit of each label's anchor pattern. -/
def labelChar : SecLabel → Char
  | .scan => '1'
  | .emotion => '2'
  | .gratitude => '3'
  | .step => '4'

/-- Start offset of the first match of `#\s*c` in the scanned suffix,
counting from `i`.  A match at a position requires a hash there, then
whitespace, then `c`; since `c` is a digit and never whitespace, the greedy
`\s*` is equivalent to skipping the whole whitespace run. -/
def firstPatAux (c : Char) : Doc → Nat → Option Nat
  | [], _ => none
  | '#' :: rest, i =>
    if (rest.dropWhile isPySpace).head? == some c then some i
    else firstPatAux c rest (i + 1)
  | _ :: rest, i => firstPatAux c rest (i + 1)

/-- Start offset of the first match of `#\s*c` in `text`
(`re.search(pat, text).start()`). -/
def firstPat (c : Char) (text : Doc) : Option Nat :=
  firstPatAux c text 0

/-- The labels in the iteration order of `pattern_map`. -/
def secLabels : List SecLabel := [.scan, .emotion, .gratitude, .step]

/-- Insert into a list sorted ascending by offset (offsets of distinct
patterns are always distinct, so tie order is immaterial). -/
def insertAsc (x : Nat × SecLabel) : List (Nat × SecLabel) → List (Nat × SecLabel)
  | [] => [x]
  | y :: ys => if x.1 ≤ y.1 then x :: y :: ys else y :: insertAsc x ys

/-- `sorted([(v, k) for k, v in indices.items() if v != -1])`. -/
def sortedIndices (text : Doc) : List (Nat × SecLabel) :=
  (secLabels.filterMap fun k =>
    (firstPat (labelChar k) text).map fun i => (i, k)).foldr insertAsc []

/-- Walk the sorted offsets looking for `label`; its segment runs to the next
offset, or to the end of the text if it is last, and is stripped. -/
def extractFrom (text : Doc) (label : SecLabel) : List (Nat × SecLabel) → Doc
  | [] => []
  | (i, k) :: rest =>
    if k = label then
      let nextIdx :=
        match rest with
        | [] => text.length
        | (j, _) :: _ => j
      stripL ((text.drop i).take (nextIdx - i))
    else extractFrom text label rest

/-- `extract_section` of `daily_pipeline.py`. -/
def extract_section (text : Doc) (label : SecLabel) : Doc :=
  extractFrom text label (sortedIndices text)

/-!
Frontmatter handling of `fetch_raindrop_body.py` (lines 56-65 and 110-122):
`content.startswith("---")`, `content.split("---", 2)` (reject with fewer
than three parts, keep parts 1 and 2), replacement of the marker section from
the marker to the end of the body (or append), and reassembly as
`"---\n" + frontmatter + "---" + new_body`.
-/

/-- The frontmatter delimiter string "---". -/
def dashes : Doc := ['-', '-', '-']

/-- The frontmatter split: `parts = content.split("---", 2)` after the
`startswith("---")` guard; `none` models the `continue` that skips the
document (the spec's NotFrontmatterDocument). -/
def splitFrontmatter (content : Doc) : Option (Doc × Doc) :=
  if dashes.isPrefixOf content then
    let rest := content.drop 3
    match firstIdx dashes rest with
    | some j => some (rest.take j, rest.drop (j + 3))
    | none => none
  else none

/-- The marker header of the fetched-body section. -/
def bodyMarker : Doc := "## 本文（newspaper3k）".toList

/-- The section header text prepended to the extracted article body. -/
def fetchHeader : Doc := '\n' :: '\n' :: (bodyMarker ++ ['\n'])

/-- The body-replacement step: if the marker occurs in the body, keep only
the part before its first occurrence and append the header and the extracted
text; otherwise append them to the whole body. -/
def newBody (body extracted : Doc) : Doc :=
  match firstIdx bodyMarker body with
  | some i => body.take i ++ fetchHeader ++ extracted
  | none => body ++ fetchHeader ++ extracted

/-- Reassembly: `"---\n" + frontmatter_str + "---" + new_body`. -/
def reassemble (fm nb : Doc) : Doc :=
  dashes ++ '\n' :: (fm ++ dashes ++ nb)

/-- One document update of `fetch_raindrop_body`: split, replace the body,
reassemble. -/
def fetchUpdate (content extracted : Doc) : Option Doc :=
  (splitFrontmatter content).map fun p => reassemble p.1 (newBody p.2 extracted)

/-!
`get_week_range` of `weekly_review.py` (lines 84-97):
`year, week = map(int, iso_week_str.split('-W'))` followed by
`datetime.date.fromisocalendar(year, week, 1)` and `(..., 7)`; every
`ValueError` (wrong number of parts, unparsable integer, invalid week/year)
yields `(None, None)`.  Dates are modelled as proleptic-Gregorian ordinals
(ordinal 1 = January 1 of year 1, a Monday), exactly `date.toordinal()`.
-/

/-- The split separator "-W". -/
def sepW : Doc := ['-', 'W']

/-- `s.split('-W')`, with fuel (each step consumes at least two characters,
so `s.length` steps always suffice). -/
def splitWFuel : Nat → Doc → List Doc
  | 0, s => [s]
  | Nat.succ fuel, s =>
    match firstIdx sepW s with
    | none => [s]
    | some i => s.take i :: splitWFuel fuel (s.drop (i + 2))

/-- Python `s.split('-W')`. -/
def splitW (s : Doc) : List Doc :=
  splitWFuel s.length s

/-- Digit run with single underscores allowed between digits, the integer
syntax accepted by Python `int()` after stripping (ASCII digits modelled).
The flag records whether the previous character was a digit. -/
def parseDigitsAux : Doc → Nat → Bool → Option Nat
  | [], acc, prevDigit => if prevDigit then some acc else none
  | c :: t, acc, prevDigit =>
    if c.isDigit then parseDigitsAux t (acc * 10 + digVal c) true
    else if c == '_' && prevDigit then parseDigitsAux t acc false
    else none

/-- Python `int(s)`: strip whitespace, optional sign, digit run. -/
def parsePyInt (s : Doc) : Option Int :=
  match stripL s with
  | '+' :: ds => (parseDigitsAux ds 0 false).map Int.ofNat
  | '-' :: ds => (parseDigitsAux ds 0 false).map fun n => -(n : Int)
  | ds => (parseDigitsAux ds 0 false).map Int.ofNat

/-- Gregorian leap year. -/
def isLeapYear (y : Nat) : Bool :=
  y % 4 == 0 && (y % 100 != 0 || y % 400 == 0)

/-- Days in all years before year `y` (year at least 1). -/
def daysBeforeYear (y : Nat) : Nat :=
  (y - 1) * 365 + (y - 1) / 4 - (y - 1) / 100 + (y - 1) / 400

/-- Month lengths of a year. -/
def monthLengths (leap : Bool) : List Nat :=
  [31, if leap then 29 else 28, 31, 30, 31, 30, 31, 31, 30, 31, 30, 31]

/-- Days in the months of year `y` before month `m`. -/
def daysBeforeMonth (y m : Nat) : Nat :=
  ((monthLengths (isLeapYear y)).take (m - 1)).sum

/-- `datetime.date(y, m, d).toordinal()`. -/
def ymdToOrd (y m d : Nat) : Nat :=
  daysBeforeYear y + daysBeforeMonth y m + d

/-- Ordinal of the Monday of ISO week 1 of year `y`
(CPython `_isoweek1monday`). -/
def isoWeek1Monday (y : Nat) : Nat :=
  let firstDay := ymdToOrd y 1 1
  let firstWeekday := (firstDay + 6) % 7
  firstDay - firstWeekday + (if firstWeekday > 3 then 7 else 0)

/-- Whether year `y` has an ISO week 53 (CPython `_isoweek_to_gregorian`):
January 1 falls on a Thursday, or on a Wednesday of a leap year. -/
def week53ok (y : Nat) : Bool :=
  ymdToOrd y 1 1 % 7 == 4 || (ymdToOrd y 1 1 % 7 == 3 && isLeapYear y)

/-- The year/week pair parsed from the identifier, or `none` on any
`ValueError` of the split/unpack/int step. -/
def parseYearWeek (s : Doc) : Option (Int × Int) :=
  match splitW s with
  | [a, b] =>
    match parsePyInt a, parsePyInt b with
    | some y, some w => some (y, w)
    | _, _ => none
  | _ => none

/-- Validity of `(year, week)` for `date.fromisocalendar` with days 1 and 7:
year in 1..9999, week in 1..52 or a 53rd week that exists, and the Sunday
still inside the supported ordinal range (ordinal of 9999-12-31). -/
def isoValid (y w : Int) : Bool :=
  decide (1 ≤ y) && decide (y ≤ 9999) && decide (1 ≤ w) &&
    (decide (w ≤ 52) || (w == 53 && week53ok y.toNat)) &&
    decide (isoWeek1Monday y.toNat + (w.toNat - 1) * 7 + 6 ≤ 3652059)

/-- `get_week_range` of `weekly_review.py`, returning the ordinals of the
Monday and the Sunday, or `none` for `(None, None)`. -/
def get_week_range (s : Doc) : Option (Nat × Nat) :=
  match parseYearWeek s with
  | some (y, w) =>
    if isoValid y w then
      let a := isoWeek1Monday y.toNat + (w.toNat - 1) * 7
      some (a, a + 6)
    else none
  | none => none

end ObsidianAutomation

namespace ObsidianAutomation

example : ("## A".toList : Doc) = ['#', '#', ' ', 'A'] := by decide

example : firstIdx "## A".toList "x ## A y".toList = some 2 := by decide

example :
    upsert "# Note\n## A\nold\n## B\nkeep\n".toList "## A".toList
        "new".toList =
      some "# Note\n## A\nnew\n\n## B\nkeep\n".toList := by decide

example :
    upsert "# T\n".toList "## A".toList "x".toList =
      some "# T\n\n\n## A\nx\n".toList := by decide

example :
    upsert "# T\n\n\n## A\nx\n".toList "## A".toList "x".toList =
      some "# T\n\n\n## A\nx\n\n".toList := by decide

example :
    upsert "## A\nx\n".toList "## A".toList ['\\', 'q'] = none := by decide

example :
    upsert "## A\nx\n".toList "## A".toList ['\\', '1'] =
      some "## A\n## A\n\n".toList := by decide

example :
    upsert "no header".toList "## A".toList ['\\', 'q'] =
      some "no header\n\n## A\n\\q\n".toList := by decide

example :
    get_section "# N\n## A\n\nfoo\nbar\n## B\nz\n".toList "## A".toList =
      "foo\nbar".toList := by decide

example :
    get_section "## A x ## A y ## A z".toList "## A".toList =
      "x".toList := by decide

example : get_section "none".toList "## A".toList = [] := by decide

example :
    extract_section "#1 a\n#2 b\n#3 c".toList .scan = "#1 a".toList := by
  decide

example :
    extract_section "pre # 3 x\n#1 y\n# 2 z".toList .gratitude =
      "# 3 x".toList := by decide

example :
    extract_section "pre # 3 x\n#1 y\n# 2 z".toList .step = [] := by decide

example :
    splitFrontmatter "---\nlink: http://x\n---\nBody text".toList =
      some ("\nlink: http://x\n".toList, "\nBody text".toList) := by decide

example : splitFrontmatter "no dashes here".toList = none := by decide

example :
    fetchUpdate "---\nlink: http://x\n---\nBody text".toList "E".toList =
      some "---\n\nlink: http://x\n---\nBody text\n\n## 本文（newspaper3k）\nE".toList := by
  decide

example :
    get_week_range "2026-W02".toList = some (739621, 739627) := by decide

example : ymdToOrd 2026 1 5 = 739621 := by decide

example :
    get_week_range "2026-W53".toList = some (739978, 739984) := by decide

example : get_week_range "2026W02".toList = none := by decide

example : get_week_range "2026-W0".toList = none := by decide

example : get_week_range "x-W2".toList = none := by decide

example : get_week_range "2026-W02-W03".toList = none := by decide

example :
    get_week_range " 2026 -W 02 ".toList = some (739621, 739627) := by decide

example : get_week_range "1-W1".toList = some (1, 7) := by decide

example : get_week_range "9999-W52".toList = none := by decide

/-!
General helper lemmas about the embedding.
-/

/-- Where `firstIdxAux` reports an occurrence, the needle is a prefix of the
corresponding suffix, within bounds. -/
theorem firstIdxAux_spec (n : Doc) :
    ∀ (h : Doc) (i s : Nat), firstIdxAux n h i = some s →
      ∃ k, s = i + k ∧ k ≤ h.length ∧ n.isPrefixOf (h.drop k) = true := by
  intro h
  induction h with
  | nil =>
    intro i s hs
    simp only [firstIdxAux] at hs
    by_cases he : n.isEmpty
    · refine ⟨0, ?_, by simp, ?_⟩
      · simp [he] at hs; omega
      · cases n with
        | nil => simp [List.isPrefixOf]
        | cons a t => simp [List.isEmpty] at he
    · simp [he] at hs
  | cons c t ih =>
    intro i s hs
    simp only [firstIdxAux] at hs
    by_cases hp : n.isPrefixOf (c :: t) = true
    · refine ⟨0, ?_, by simp, by simpa using hp⟩
      simp [hp] at hs; omega
    · simp [hp] at hs
      obtain ⟨k, hk, hkl, hpre⟩ := ih (i + 1) s hs
      exact ⟨k + 1, by omega, by simpa using Nat.succ_le_succ hkl, by simpa using hpre⟩

/-- An occurrence reported by `firstIdx` decomposes the haystack. -/
theorem firstIdx_decomp {n hay : Doc} {s : Nat} (hf : firstIdx n hay = some s) :
    hay = hay.take s ++ n ++ hay.drop (s + n.length) ∧ s + n.length ≤ hay.length := by
  obtain ⟨k, hk, hkl, hpre⟩ := firstIdxAux_spec n hay 0 s hf
  have hk0 : s = k := by omega
  subst hk0
  obtain ⟨t, ht⟩ := List.isPrefixOf_iff_prefix.mp hpre
  have ht : hay.drop s = n ++ t := ht.symm
  have hlen : n.length ≤ (hay.drop s).length := by
    rw [ht]; simp
  have hdd : hay.drop (s + n.length) = t := by
    have h2 : (hay.drop s).drop n.length = t := by rw [ht]; simp
    rw [List.drop_drop] at h2
    exact h2
  constructor
  · conv_lhs => rw [← List.take_append_drop s hay]
    rw [ht, hdd, List.append_assoc]
  · have := List.length_drop s hay
    omega

/-- A backslash-free replacement template expands to itself. -/
theorem expandTemplateFuel_no_backslash (g0 g1 : Doc) :
    ∀ (fuel : Nat) (tmpl : Doc), tmpl.length ≤ fuel → '\\' ∉ tmpl →
      expandTemplateFuel g0 g1 fuel tmpl = some tmpl := by
  intro fuel
  induction fuel with
  | zero =>
    intro tmpl hlen _
    cases tmpl with
    | nil => rfl
    | cons c t => simp at hlen
  | succ fuel ih =>
    intro tmpl hlen hbs
    cases tmpl with
    | nil => rfl
    | cons c t =>
      have hc : c ≠ '\\' := by
        intro hc; exact hbs (hc ▸ List.mem_cons_self c t)
      have ht : '\\' ∉ t := fun m => hbs (List.mem_cons_of_mem c m)
      simp only [expandTemplateFuel, if_pos hc]
      rw [ih t (by simpa using Nat.le_of_succ_le_succ hlen) ht]
      rfl

/-- A backslash-free replacement template expands to itself. -/
theorem expandTemplate_no_backslash {g0 g1 tmpl : Doc} (hbs : '\\' ∉ tmpl) :
    expandTemplate g0 g1 tmpl = some tmpl :=
  expandTemplateFuel_no_backslash g0 g1 tmpl.length tmpl (Nat.le_refl _) hbs

/-- The replacement template built by upsert from a backslash-free header and
body is backslash-free. -/
theorem upsert_template_no_backslash {h b : Doc} (hh : '\\' ∉ h)
    (hb : '\\' ∉ b) : '\\' ∉ h ++ '\n' :: (b ++ ['\n']) := by
  intro hm
  rcases List.mem_append.mp hm with hm | hm
  · exact hh hm
  · rcases List.mem_cons.mp hm with hm | hm
    · exact absurd hm (by decide)
    · rcases List.mem_append.mp hm with hm | hm
      · exact hb hm
      · exact absurd hm (by decide)

/-- Taking a prefix-sized slice of an append yields the prefix. -/
theorem takeApp (X Y : Doc) (n : Nat) (hn : n = X.length) :
    (X ++ Y).take n = X := by
  subst hn; simp

/-- Dropping a prefix-sized slice of an append yields the suffix. -/
theorem dropApp (X Y : Doc) (n : Nat) (hn : n = X.length) :
    (X ++ Y).drop n = Y := by
  subst hn; simp

/-- With a backslash-free header and body the replace branch of upsert
rewrites the span from the header's first occurrence to the match end with
the header line and the body line. -/
theorem upsert_replace_eq (d h b : Doc) (s : Nat)
    (hf : firstIdx h d = some s) (hh : '\\' ∉ h) (hb : '\\' ∉ b) :
    upsert d h b =
      some (d.take s ++ (h ++ '\n' :: (b ++ ['\n'])) ++
        d.drop (matchEnd d (s + h.length))) := by
  simp only [upsert, hf]
  rw [expandTemplate_no_backslash (upsert_template_no_backslash hh hb)]

/-- C10: the upsert body is substituted as a regex replacement template; on a
document containing the header, a body of backslash-q makes upsert fail
instead of producing a document, a body of backslash-1 is interpreted as a
group reference and inserts the header text, while the append branch (header
absent) copies the same body verbatim. -/
theorem upsert_template_escape :
    upsert "## A\nx\n".toList "## A".toList ['\\', 'q'] = none ∧
    upsert "## A\nx\n".toList "## A".toList ['\\', '1'] =
      some "## A\n## A\n\n".toList ∧
    upsert "no header".toList "## A".toList ['\\', 'q'] =
      some "no header\n\n## A\n\\q\n".toList := by
  decide

/-- C2 counterexample: replacing the body of "## A" in the example document
does not give the byte string the claim demands (the code leaves the
newline that preceded "## B" in place, so a blank line appears). -/
theorem upsert_example_cex :
    upsert "# Note\n## A\nold\n## B\nkeep\n".toList "## A".toList
        "new".toList ≠
      some "# Note\n## A\nnew\n## B\nkeep\n".toList := by
  decide

/-- C2 amended: the exact results of the two upserts on the example document:
the replace step yields a blank line before "## B" (the matched span ends at
the newline that precedes "## B", and the replacement re-adds a trailing
newline), and the append step adds a blank-line separator plus the new
section at the end, leaving the earlier sections byte-identical. -/
theorem upsert_example_exact :
    upsert "# Note\n## A\nold\n## B\nkeep\n".toList "## A".toList
        "new".toList =
      some "# Note\n## A\nnew\n\n## B\nkeep\n".toList ∧
    upsert "# Note\n## A\nnew\n\n## B\nkeep\n".toList "## C".toList
        "added".toList =
      some "# Note\n## A\nnew\n\n## B\nkeep\n\n\n## C\nadded\n".toList := by
  decide

/-- C1 counterexample: upsert is not idempotent.  On a document without the
header the first application appends the section; the second application
matches the appended section, but the regex `$` stops the lazy match before
the final newline, so the replacement adds one more newline. -/
theorem upsert_idempotent_cex :
    ((upsert "# T\n".toList "## A".toList "x".toList).bind fun r =>
        upsert r "## A".toList "x".toList) ≠
      upsert "# T\n".toList "## A".toList "x".toList ∧
    upsert "# T\n".toList "## A".toList "x".toList =
      some "# T\n\n\n## A\nx\n".toList ∧
    upsert "# T\n\n\n## A\nx\n".toList "## A".toList "x".toList =
      some "# T\n\n\n## A\nx\n\n".toList := by
  decide

/-- C4 counterexample: upsert does not commute for distinct non-prefix
headers when both are absent: the two orders append the two sections in
opposite order. -/
theorem upsert_comm_cex :
    "## A".toList ≠ "## B".toList ∧
    "## A".toList.isPrefixOf "## B".toList = false ∧
    "## B".toList.isPrefixOf "## A".toList = false ∧
    ((upsert [] "## A".toList "a".toList).bind fun r =>
        upsert r "## B".toList "b".toList) ≠
      ((upsert [] "## B".toList "b".toList).bind fun r =>
        upsert r "## A".toList "a".toList) := by
  decide

/-- C5 counterexample: header matching is not anchored to line starts.  In
the document the header "## A" occurs only in the middle of a line (not at
the start of the text and never after a newline), yet `get_section` extracts
a non-empty body and upsert takes the replace branch, rewriting from the
mid-line occurrence. -/
theorem header_anchor_cex :
    firstIdx "## A".toList "x ## A y\nc".toList = some 2 ∧
    "## A".toList.isPrefixOf "x ## A y\nc".toList = false ∧
    firstIdx ('\n' :: "## A".toList) "x ## A y\nc".toList = none ∧
    get_section "x ## A y\nc".toList "## A".toList = "y\nc".toList ∧
    upsert "x ## A y\nc".toList "## A".toList "B".toList =
      some "x ## A\nB\n".toList := by
  decide

/-- C5 amended: header matching is plain substring matching.  Upsert takes
the append branch exactly when the header does not occur anywhere in the
document; a mid-line occurrence counts as present — it makes `get_section`
return a non-empty body and upsert take the replace branch. -/
theorem header_substring_amended :
    (∀ (d h b : Doc), firstIdx h d = none →
      upsert d h b =
        some (d ++ '\n' :: '\n' :: (h ++ '\n' :: (b ++ ['\n'])))) ∧
    (firstIdx "## A".toList "x ## A y\nc".toList = some 2 ∧
      get_section "x ## A y\nc".toList "## A".toList = "y\nc".toList ∧
      upsert "x ## A y\nc".toList "## A".toList "B".toList =
        some "x ## A\nB\n".toList) := by
  constructor
  · intro d h b hf
    simp [upsert, hf]
  · decide

/-- Witness for the hypotheses of `header_substring_amended`. -/
theorem header_substring_amended_witness :
    upsert "doc".toList "## Z".toList "w".toList =
      some ("doc".toList ++ '\n' :: '\n' ::
        ("## Z".toList ++ '\n' :: ("w".toList ++ ['\n']))) :=
  header_substring_amended.1 "doc".toList "## Z".toList "w".toList
    (by decide)

/-- C3: upsert preserves every byte outside the targeted span.  In the
replace branch the result is the prefix before the matched span, some middle
text, and the suffix from the original match end on, so both sides of the
span are byte-identical to the original; in the append branch the original
document is a prefix of the result and the appended text is a pure suffix. -/
theorem upsert_frame :
    (∀ (d h b r : Doc) (s : Nat), upsert d h b = some r →
      firstIdx h d = some s →
      r.take s = d.take s ∧
      ∃ mid, r = d.take s ++ mid ++ d.drop (matchEnd d (s + h.length))) ∧
    (∀ (d h b r : Doc), upsert d h b = some r → firstIdx h d = none →
      ∃ tail, r = d ++ tail) := by
  constructor
  · intro d h b r s hu hf
    have hsd : s + h.length ≤ d.length := (firstIdx_decomp hf).2
    simp only [upsert, hf] at hu
    cases em : expandTemplate
        ((d.drop s).take (matchEnd d (s + h.length) - s)) h
        (h ++ '\n' :: (b ++ ['\n'])) with
    | none => rw [em] at hu; exact absurd hu (by simp)
    | some repl =>
      rw [em] at hu
      have hr : r = d.take s ++ repl ++ d.drop (matchEnd d (s + h.length)) :=
        (Option.some.inj hu).symm
      refine ⟨?_, repl, hr⟩
      rw [hr, List.append_assoc]
      rw [takeApp (d.take s) _ s (by simp; omega)]
  · intro d h b r hu hf
    simp only [upsert, hf] at hu
    exact ⟨'\n' :: '\n' :: (h ++ '\n' :: (b ++ ['\n'])),
      (Option.some.inj hu).symm⟩

/-- Witness for the hypotheses of `upsert_frame`, at a concrete replace. -/
theorem upsert_frame_witness :
    "## A\ny\n\n## B\nz\n".toList.take 0 =
      "## A\nx\n## B\nz\n".toList.take 0 ∧
    ∃ mid, "## A\ny\n\n## B\nz\n".toList =
      "## A\nx\n## B\nz\n".toList.take 0 ++ mid ++
        "## A\nx\n## B\nz\n".toList.drop
          (matchEnd "## A\nx\n## B\nz\n".toList (0 + "## A".toList.length)) :=
  upsert_frame.1 "## A\nx\n## B\nz\n".toList "## A".toList "y".toList
    "## A\ny\n\n## B\nz\n".toList 0 (by decide) (by decide)

/-- C6 counterexample: the splitter does not return the delimiter-free
blocks the claim demands; the newline after the opening delimiter stays in
the frontmatter part and the newline after the closing delimiter stays in
the body part. -/
theorem frontmatter_split_cex :
    splitFrontmatter "---\nlink: http://x\n---\nBody text".toList ≠
      some ("link: http://x\n".toList, "Body text".toList) := by
  decide

/-- C6 amended: on the example document the splitter returns the frontmatter
with its leading newline and the body with its leading newline; it rejects
"no dashes here"; and in general it rejects a document exactly when the text
does not start with "---" or contains no second occurrence of "---" after
the first (the delimiters are matched as plain substrings, not as
"---"-only lines, and one further occurrence suffices). -/
theorem frontmatter_split_amended :
    splitFrontmatter "---\nlink: http://x\n---\nBody text".toList =
      some ("\nlink: http://x\n".toList, "\nBody text".toList) ∧
    splitFrontmatter "no dashes here".toList = none ∧
    ∀ c : Doc, splitFrontmatter c = none ↔
      (dashes.isPrefixOf c = false ∨ firstIdx dashes (c.drop 3) = none) := by
  refine ⟨by decide, by decide, ?_⟩
  intro c
  by_cases hp : dashes.isPrefixOf c
  · cases hq : firstIdx dashes (c.drop 3) with
    | none => simp [splitFrontmatter, hp, hq]
    | some j => simp [splitFrontmatter, hp, hq]
  · simp [splitFrontmatter, hp, Bool.not_eq_true _ ▸ hp]

/-- C7 counterexample: reassembly does not preserve the document's prefix up
to the closing delimiter.  On the example document (whose prefix through the
second "---" is 22 characters) the reassembled document inserts an extra
newline right after the opening "---", so the 22-character prefixes differ. -/
theorem frontmatter_frame_cex :
    (fetchUpdate "---\nlink: http://x\n---\nBody text".toList
        "E".toList).map (fun r => r.take 22) ≠
      some ("---\nlink: http://x\n---\nBody text".toList.take 22) := by
  decide

/-- C7 amended: a well-formed document decomposes as the opening "---", the
frontmatter block and the closing "---" followed by the body; reassembly
keeps the frontmatter block and the closing delimiter byte-identical but
writes the opening delimiter as "---" plus an extra newline, and only the
body part changes beyond that. -/
theorem frontmatter_frame_amended :
    ∀ (c fm body extracted r : Doc), splitFrontmatter c = some (fm, body) →
      fetchUpdate c extracted = some r →
      c = dashes ++ (fm ++ (dashes ++ body)) ∧
      r = dashes ++ '\n' :: (fm ++ (dashes ++ newBody body extracted)) := by
  intro c fm body extracted r hs hu
  have hs0 := hs
  by_cases hp : dashes.isPrefixOf c
  · cases hq : firstIdx dashes (c.drop 3) with
    | none => simp [splitFrontmatter, hp, hq] at hs
    | some j =>
      simp only [splitFrontmatter, hp, if_true, hq] at hs
      have hs' := Option.some.inj hs
      have hfm : (c.drop 3).take j = fm := congrArg Prod.fst hs'
      have hbody : (c.drop 3).drop (j + 3) = body := congrArg Prod.snd hs'
      obtain ⟨t, ht⟩ := List.isPrefixOf_iff_prefix.mp hp
      have ht3 : c.drop 3 = t := by
        rw [← ht]; exact dropApp dashes t 3 (by decide)
      have hdec := (firstIdx_decomp hq).1
      constructor
      · have hlen3 : dashes.length = 3 := by decide
        have hdec' : c.drop 3 = fm ++ dashes ++ body := by
          conv_lhs => rw [hdec]
          rw [hlen3, hfm, hbody]
        conv_lhs => rw [← ht, ← ht3, hdec']
        simp [List.append_assoc]
      · simp only [fetchUpdate, hs0, Option.map_some] at hu
        rw [← Option.some.inj hu]
        simp [reassemble, List.append_assoc]
  · simp [splitFrontmatter, hp] at hs

/-- Witness for the hypotheses of `frontmatter_frame_amended`. -/
theorem frontmatter_frame_amended_witness :
    ("---\nlink: http://x\n---\nBody text".toList : Doc) =
      dashes ++ ("\nlink: http://x\n".toList ++
        (dashes ++ "\nBody text".toList)) ∧
    ("---\n\nlink: http://x\n---\nBody text\n\n## 本文（newspaper3k）\nE".toList : Doc) =
      dashes ++ '\n' :: ("\nlink: http://x\n".toList ++
        (dashes ++ newBody "\nBody text".toList "E".toList)) :=
  frontmatter_frame_amended "---\nlink: http://x\n---\nBody text".toList
    "\nlink: http://x\n".toList "\nBody text".toList "E".toList
    "---\n\nlink: http://x\n---\nBody text\n\n## 本文（newspaper3k）\nE".toList
    (by decide) (by decide)

/-- The Monday of ISO week 1 is always a Monday (ordinal 1 mod 7, since
ordinal 1 is Monday, January 1 of year 1). -/
theorem isoWeek1Monday_mod (y : Nat) : isoWeek1Monday y % 7 = 1 := by
  have h1 : ymdToOrd y 1 1 = daysBeforeYear y + 1 := by
    simp [ymdToOrd, daysBeforeMonth, monthLengths]
  simp only [isoWeek1Monday, h1]
  by_cases hgt : (daysBeforeYear y + 1 + 6) % 7 > 3
  · simp only [if_pos hgt]
    omega
  · simp only [if_neg hgt]
    omega

/-- C8: the week-range resolver maps "2026-W02" to Monday 2026-01-05 through
Sunday 2026-01-11; every successful result is an inclusive Monday-to-Sunday
range placed by the ISO week-1-Monday rule; and it fails exactly when the
identifier does not parse into a year and a week number or the pair is not a
valid ISO week (week out of range for that year, or year outside the
supported calendar). -/
theorem week_range_ok :
    get_week_range "2026-W02".toList =
      some (ymdToOrd 2026 1 5, ymdToOrd 2026 1 11) ∧
    (∀ (s : Doc) (a b : Nat), get_week_range s = some (a, b) →
      b = a + 6 ∧ a % 7 = 1 ∧
      ∃ y w : Int, parseYearWeek s = some (y, w) ∧ isoValid y w = true ∧
        a = isoWeek1Monday y.toNat + (w.toNat - 1) * 7) ∧
    (∀ s : Doc, get_week_range s = none ↔
      (parseYearWeek s = none ∨
        ∃ y w : Int, parseYearWeek s = some (y, w) ∧ isoValid y w = false)) := by
  refine ⟨by decide, ?_, ?_⟩
  · intro s a b hg
    cases hp : parseYearWeek s with
    | none => simp [get_week_range, hp] at hg
    | some yw =>
      obtain ⟨y, w⟩ := yw
      by_cases hv : isoValid y w
      · simp only [get_week_range, hp, if_pos hv] at hg
        have hg' := Option.some.inj hg
        have ha : isoWeek1Monday y.toNat + (w.toNat - 1) * 7 = a :=
          congrArg Prod.fst hg'
        have hb : isoWeek1Monday y.toNat + (w.toNat - 1) * 7 + 6 = b :=
          congrArg Prod.snd hg'
        refine ⟨by omega, ?_, y, w, ?_, hv, ha.symm⟩
        · have hm := isoWeek1Monday_mod y.toNat
          omega
        · rfl
      · simp [get_week_range, hp, hv] at hg
  · intro s
    cases hp : parseYearWeek s with
    | none => simp [get_week_range, hp]
    | some yw =>
      obtain ⟨y, w⟩ := yw
      by_cases hv : isoValid y w
      · simp [get_week_range, hp, hv]
      · simp only [get_week_range, hp, if_neg hv]
        simp only [reduceCtorEq, Option.some.injEq, Prod.mk.injEq, false_or,
          true_iff]
        exact ⟨y, w, ⟨rfl, rfl⟩, by simpa using hv⟩

/-- Witness for the hypotheses of `week_range_ok`. -/
theorem week_range_ok_witness :
    739627 = 739621 + 6 ∧ 739621 % 7 = 1 ∧
    ∃ y w : Int, parseYearWeek "2026-W02".toList = some (y, w) ∧
      isoValid y w = true ∧
      739621 = isoWeek1Monday y.toNat + (w.toNat - 1) * 7 :=
  week_range_ok.2.1 "2026-W02".toList 739621 739627 (by decide)

/-- Chaining slices: the slice from `a` to `b` followed by the rest from `b`
is the rest from `a`. -/
theorem take_drop_chain (t : Doc) (a b : Nat) (hab : a ≤ b) :
    (t.drop a).take (b - a) ++ t.drop b = t.drop a := by
  have h1 : t.drop b = (t.drop a).drop (b - a) := by
    rw [List.drop_drop]
    congr 1
    omega
  rw [h1, List.take_append_drop]

/-- The final slice, up to the text's length, is the whole rest. -/
theorem drop_take_rest (t : Doc) (a : Nat) :
    (t.drop a).take (t.length - a) = t.drop a := by
  have h := List.take_length (t.drop a)
  rwa [List.length_drop] at h

/-- C9 counterexample: on text whose three anchors appear in order, the
returned segments do not cover the whole input: each segment is stripped of
surrounding whitespace, so the newlines between anchors are lost (and the
first segment is not the raw slice between the first two offsets). -/
theorem anchor_segments_cex :
    firstPat '1' "#1 a\n#2 b\n#3 c".toList = some 0 ∧
    firstPat '2' "#1 a\n#2 b\n#3 c".toList = some 5 ∧
    firstPat '3' "#1 a\n#2 b\n#3 c".toList = some 10 ∧
    firstPat '4' "#1 a\n#2 b\n#3 c".toList = none ∧
    extract_section "#1 a\n#2 b\n#3 c".toList .scan ≠
      ("#1 a\n#2 b\n#3 c".toList.drop 0).take 5 ∧
    extract_section "#1 a\n#2 b\n#3 c".toList .scan ++
        (extract_section "#1 a\n#2 b\n#3 c".toList .emotion ++
          extract_section "#1 a\n#2 b\n#3 c".toList .gratitude) ≠
      "#1 a\n#2 b\n#3 c".toList := by
  decide

/-- C9 amended: when the three anchor patterns match in ascending order and
the fourth is absent, each returned segment is the stripped slice from its
anchor's offset to the next anchor's offset (to the end of the text for the
last); the unstripped slices are contiguous, non-overlapping, ascending, and
concatenate to the input from the first anchor's offset (text before the
first anchor is not part of any segment). -/
theorem anchor_segments_amended :
    ∀ (t : Doc) (o1 o2 o3 : Nat),
      firstPat '1' t = some o1 → firstPat '2' t = some o2 →
      firstPat '3' t = some o3 → firstPat '4' t = none →
      o1 < o2 → o2 < o3 →
      extract_section t .scan = stripL ((t.drop o1).take (o2 - o1)) ∧
      extract_section t .emotion = stripL ((t.drop o2).take (o3 - o2)) ∧
      extract_section t .gratitude =
        stripL ((t.drop o3).take (t.length - o3)) ∧
      (t.drop o1).take (o2 - o1) ++
          ((t.drop o2).take (o3 - o2) ++
            (t.drop o3).take (t.length - o3)) =
        t.drop o1 := by
  intro t o1 o2 o3 f1 f2 f3 f4 h12 h23
  have hs : sortedIndices t =
      [(o1, SecLabel.scan), (o2, SecLabel.emotion), (o3, SecLabel.gratitude)] := by
    simp [sortedIndices, secLabels, labelChar, f1, f2, f3, f4, insertAsc,
      Nat.le_of_lt h12, Nat.le_of_lt h23]
  refine ⟨?_, ?_, ?_, ?_⟩
  · simp [extract_section, hs, extractFrom]
  · simp [extract_section, hs, extractFrom]
  · simp [extract_section, hs, extractFrom]
  · rw [drop_take_rest, take_drop_chain t o2 o3 (Nat.le_of_lt h23),
      take_drop_chain t o1 o2 (Nat.le_of_lt h12)]

/-- C1 amended: upsert is idempotent only in the replace case whose section
is followed by another section delimiter: when the header's first occurrence
and match end land on the section structure before and after the rewrite,
re-applying upsert reproduces the document.  In the append case the claim
fails minimally: the second application matches the appended section, the
lazy match stops before the final newline, and the result is the first
result plus exactly one extra newline, a different document. -/
theorem upsert_idem_amended :
    (∀ (A B E h b : Doc), '\\' ∉ h → '\\' ∉ b →
      firstIdx h (A ++ (h ++ (B ++ E))) = some A.length →
      matchEnd (A ++ (h ++ (B ++ E))) (A.length + h.length) =
        A.length + h.length + B.length →
      firstIdx h (A ++ (h ++ (('\n' :: (b ++ ['\n'])) ++ E))) =
        some A.length →
      matchEnd (A ++ (h ++ (('\n' :: (b ++ ['\n'])) ++ E)))
          (A.length + h.length) = A.length + h.length + (b.length + 2) →
      upsert (A ++ (h ++ (B ++ E))) h b =
        some (A ++ (h ++ (('\n' :: (b ++ ['\n'])) ++ E))) ∧
      upsert (A ++ (h ++ (('\n' :: (b ++ ['\n'])) ++ E))) h b =
        some (A ++ (h ++ (('\n' :: (b ++ ['\n'])) ++ E)))) ∧
    (∀ (d h b : Doc), '\\' ∉ h → '\\' ∉ b →
      firstIdx h d = none →
      firstIdx h (d ++ '\n' :: '\n' :: (h ++ '\n' :: (b ++ ['\n']))) =
        some (d.length + 2) →
      matchEnd (d ++ '\n' :: '\n' :: (h ++ '\n' :: (b ++ ['\n'])))
          (d.length + 2 + h.length) =
        d.length + h.length + b.length + 3 →
      upsert d h b =
        some (d ++ '\n' :: '\n' :: (h ++ '\n' :: (b ++ ['\n']))) ∧
      upsert (d ++ '\n' :: '\n' :: (h ++ '\n' :: (b ++ ['\n']))) h b =
        some ((d ++ '\n' :: '\n' :: (h ++ '\n' :: (b ++ ['\n']))) ++
          ['\n']) ∧
      (d ++ '\n' :: '\n' :: (h ++ '\n' :: (b ++ ['\n']))) ++ ['\n'] ≠
        d ++ '\n' :: '\n' :: (h ++ '\n' :: (b ++ ['\n']))) := by
  constructor
  · intro A B E h b hh hb f1 e1 f1' e1'
    constructor
    · rw [upsert_replace_eq _ _ _ _ f1 hh hb, e1,
        takeApp A (h ++ (B ++ E)) A.length rfl,
        show A ++ (h ++ (B ++ E)) = (A ++ (h ++ B)) ++ E by
          simp [List.append_assoc],
        dropApp (A ++ (h ++ B)) E _ (by simp; omega)]
      simp [List.append_assoc]
    · rw [upsert_replace_eq _ _ _ _ f1' hh hb, e1',
        takeApp A (h ++ (('\n' :: (b ++ ['\n'])) ++ E)) A.length rfl,
        show A ++ (h ++ (('\n' :: (b ++ ['\n'])) ++ E)) =
            (A ++ (h ++ ('\n' :: (b ++ ['\n'])))) ++ E by
          simp [List.append_assoc],
        dropApp (A ++ (h ++ ('\n' :: (b ++ ['\n'])))) E _ (by simp; omega)]
  · intro d h b hh hb f0 f' e'
    refine ⟨by simp [upsert, f0], ?_, ?_⟩
    · rw [upsert_replace_eq _ _ _ _ f' hh hb, e',
        show d ++ '\n' :: '\n' :: (h ++ '\n' :: (b ++ ['\n'])) =
            (d ++ ['\n', '\n']) ++ (h ++ '\n' :: (b ++ ['\n'])) by
          simp,
        takeApp (d ++ ['\n', '\n']) (h ++ '\n' :: (b ++ ['\n'])) _
          (by simp),
        show (d ++ ['\n', '\n']) ++ (h ++ '\n' :: (b ++ ['\n'])) =
            ((d ++ ['\n', '\n']) ++ (h ++ '\n' :: b)) ++ ['\n'] by
          simp,
        dropApp ((d ++ ['\n', '\n']) ++ (h ++ '\n' :: b)) ['\n'] _
          (by simp; omega)]
    · intro hEq
      have hLen := congrArg List.length hEq
      simp at hLen

/-- Witness for the hypotheses of `upsert_idem_amended`, at a concrete
replace (the example document) and a concrete append. -/
theorem upsert_idem_amended_witness :
    (upsert ("# Note\n".toList ++ ("## A".toList ++
          ("\nold".toList ++ "\n## B\nkeep\n".toList))) "## A".toList
        "new".toList =
      some ("# Note\n".toList ++ ("## A".toList ++
        (('\n' :: ("new".toList ++ ['\n'])) ++ "\n## B\nkeep\n".toList))) ∧
    upsert ("# Note\n".toList ++ ("## A".toList ++
        (('\n' :: ("new".toList ++ ['\n'])) ++ "\n## B\nkeep\n".toList)))
        "## A".toList "new".toList =
      some ("# Note\n".toList ++ ("## A".toList ++
        (('\n' :: ("new".toList ++ ['\n'])) ++ "\n## B\nkeep\n".toList)))) ∧
    (upsert "# T\n".toList "## A".toList "x".toList =
      some ("# T\n".toList ++ '\n' :: '\n' :: ("## A".toList ++
        '\n' :: ("x".toList ++ ['\n']))) ∧
    upsert ("# T\n".toList ++ '\n' :: '\n' :: ("## A".toList ++
        '\n' :: ("x".toList ++ ['\n']))) "## A".toList "x".toList =
      some (("# T\n".toList ++ '\n' :: '\n' :: ("## A".toList ++
        '\n' :: ("x".toList ++ ['\n']))) ++ ['\n']) ∧
    ("# T\n".toList ++ '\n' :: '\n' :: ("## A".toList ++
        '\n' :: ("x".toList ++ ['\n']))) ++ ['\n'] ≠
      "# T\n".toList ++ '\n' :: '\n' :: ("## A".toList ++
        '\n' :: ("x".toList ++ ['\n']))) :=
  ⟨upsert_idem_amended.1 "# Note\n".toList "\nold".toList
      "\n## B\nkeep\n".toList "## A".toList "new".toList (by decide)
      (by decide) (by decide) (by decide) (by decide) (by decide),
    upsert_idem_amended.2 "# T\n".toList "## A".toList "x".toList
      (by decide) (by decide) (by decide) (by decide) (by decide)⟩

/-- C4 amended: upsert commutes only when both headers are already present,
with the first header's section delimited by the newline before the second
header and the locator and match-end landing on that section structure both
before and after each rewrite; then either order yields the same document.
(When a header is absent the append branches of the two orders produce
different byte strings.) -/
theorem upsert_comm_amended :
    ∀ (A B M E h1 h2 b1 b2 : Doc),
      '\\' ∉ h1 → '\\' ∉ h2 → '\\' ∉ b1 → '\\' ∉ b2 →
      firstIdx h1 (A ++ (h1 ++ (B ++ ('\n' :: (h2 ++ (M ++ E)))))) =
        some A.length →
      matchEnd (A ++ (h1 ++ (B ++ ('\n' :: (h2 ++ (M ++ E))))))
          (A.length + h1.length) = A.length + h1.length + B.length →
      firstIdx h2 (A ++ (h1 ++ (B ++ ('\n' :: (h2 ++ (M ++ E)))))) =
        some (A.length + h1.length + B.length + 1) →
      matchEnd (A ++ (h1 ++ (B ++ ('\n' :: (h2 ++ (M ++ E))))))
          (A.length + h1.length + B.length + 1 + h2.length) =
        A.length + h1.length + B.length + 1 + h2.length + M.length →
      firstIdx h2 (A ++ (h1 ++ (('\n' :: (b1 ++ ['\n'])) ++
            ('\n' :: (h2 ++ (M ++ E)))))) =
        some (A.length + h1.length + b1.length + 3) →
      matchEnd (A ++ (h1 ++ (('\n' :: (b1 ++ ['\n'])) ++
            ('\n' :: (h2 ++ (M ++ E))))))
          (A.length + h1.length + b1.length + 3 + h2.length) =
        A.length + h1.length + b1.length + 3 + h2.length + M.length →
      firstIdx h1 (A ++ (h1 ++ (B ++ ('\n' :: (h2 ++
            (('\n' :: (b2 ++ ['\n'])) ++ E)))))) = some A.length →
      matchEnd (A ++ (h1 ++ (B ++ ('\n' :: (h2 ++
            (('\n' :: (b2 ++ ['\n'])) ++ E))))))
          (A.length + h1.length) = A.length + h1.length + B.length →
      ((upsert (A ++ (h1 ++ (B ++ ('\n' :: (h2 ++ (M ++ E)))))) h1 b1).bind
          fun r => upsert r h2 b2) =
        some (A ++ (h1 ++ (('\n' :: (b1 ++ ['\n'])) ++
          ('\n' :: (h2 ++ (('\n' :: (b2 ++ ['\n'])) ++ E)))))) ∧
      ((upsert (A ++ (h1 ++ (B ++ ('\n' :: (h2 ++ (M ++ E)))))) h2 b2).bind
          fun r => upsert r h1 b1) =
        some (A ++ (h1 ++ (('\n' :: (b1 ++ ['\n'])) ++
          ('\n' :: (h2 ++ (('\n' :: (b2 ++ ['\n'])) ++ E)))))) := by
  intro A B M E h1 h2 b1 b2 hh1 hh2 hb1 hb2 f1 e1 f2 e2 f2' e2' f1' e1'
  have hu1 : upsert (A ++ (h1 ++ (B ++ ('\n' :: (h2 ++ (M ++ E)))))) h1 b1 =
      some (A ++ (h1 ++ (('\n' :: (b1 ++ ['\n'])) ++
        ('\n' :: (h2 ++ (M ++ E)))))) := by
    rw [upsert_replace_eq _ _ _ _ f1 hh1 hb1, e1,
      takeApp A (h1 ++ (B ++ ('\n' :: (h2 ++ (M ++ E))))) A.length rfl,
      show A ++ (h1 ++ (B ++ ('\n' :: (h2 ++ (M ++ E))))) =
          (A ++ (h1 ++ B)) ++ ('\n' :: (h2 ++ (M ++ E))) by
        simp [List.append_assoc],
      dropApp (A ++ (h1 ++ B)) ('\n' :: (h2 ++ (M ++ E))) _
        (by simp; omega)]
    simp [List.append_assoc]
  have hu12 : upsert (A ++ (h1 ++ (('\n' :: (b1 ++ ['\n'])) ++
        ('\n' :: (h2 ++ (M ++ E)))))) h2 b2 =
      some (A ++ (h1 ++ (('\n' :: (b1 ++ ['\n'])) ++
        ('\n' :: (h2 ++ (('\n' :: (b2 ++ ['\n'])) ++ E)))))) := by
    rw [upsert_replace_eq _ _ _ _ f2' hh2 hb2, e2',
      show A ++ (h1 ++ (('\n' :: (b1 ++ ['\n'])) ++
            ('\n' :: (h2 ++ (M ++ E))))) =
          (A ++ (h1 ++ ('\n' :: (b1 ++ ['\n', '\n'])))) ++
            (h2 ++ (M ++ E)) by
        simp [List.append_assoc],
      takeApp (A ++ (h1 ++ ('\n' :: (b1 ++ ['\n', '\n']))))
        (h2 ++ (M ++ E)) _ (by simp; omega),
      show (A ++ (h1 ++ ('\n' :: (b1 ++ ['\n', '\n'])))) ++
            (h2 ++ (M ++ E)) =
          ((A ++ (h1 ++ ('\n' :: (b1 ++ ['\n', '\n'])))) ++ (h2 ++ M)) ++
            E by
        simp [List.append_assoc],
      dropApp ((A ++ (h1 ++ ('\n' :: (b1 ++ ['\n', '\n'])))) ++ (h2 ++ M))
        E _ (by simp; omega)]
    simp [List.append_assoc]
  have hu2 : upsert (A ++ (h1 ++ (B ++ ('\n' :: (h2 ++ (M ++ E)))))) h2 b2 =
      some (A ++ (h1 ++ (B ++ ('\n' :: (h2 ++
        (('\n' :: (b2 ++ ['\n'])) ++ E)))))) := by
    rw [upsert_replace_eq _ _ _ _ f2 hh2 hb2, e2,
      show A ++ (h1 ++ (B ++ ('\n' :: (h2 ++ (M ++ E))))) =
          (A ++ (h1 ++ (B ++ ['\n']))) ++ (h2 ++ (M ++ E)) by
        simp [List.append_assoc],
      takeApp (A ++ (h1 ++ (B ++ ['\n']))) (h2 ++ (M ++ E)) _
        (by simp; omega),
      show (A ++ (h1 ++ (B ++ ['\n']))) ++ (h2 ++ (M ++ E)) =
          ((A ++ (h1 ++ (B ++ ['\n']))) ++ (h2 ++ M)) ++ E by
        simp [List.append_assoc],
      dropApp ((A ++ (h1 ++ (B ++ ['\n']))) ++ (h2 ++ M)) E _
        (by simp; omega)]
    simp [List.append_assoc]
  have hu21 : upsert (A ++ (h1 ++ (B ++ ('\n' :: (h2 ++
        (('\n' :: (b2 ++ ['\n'])) ++ E)))))) h1 b1 =
      some (A ++ (h1 ++ (('\n' :: (b1 ++ ['\n'])) ++
        ('\n' :: (h2 ++ (('\n' :: (b2 ++ ['\n'])) ++ E)))))) := by
    rw [upsert_replace_eq _ _ _ _ f1' hh1 hb1, e1',
      takeApp A (h1 ++ (B ++ ('\n' :: (h2 ++
        (('\n' :: (b2 ++ ['\n'])) ++ E))))) A.length rfl,
      show A ++ (h1 ++ (B ++ ('\n' :: (h2 ++
            (('\n' :: (b2 ++ ['\n'])) ++ E))))) =
          (A ++ (h1 ++ B)) ++ ('\n' :: (h2 ++
            (('\n' :: (b2 ++ ['\n'])) ++ E))) by
        simp [List.append_assoc],
      dropApp (A ++ (h1 ++ B)) ('\n' :: (h2 ++
        (('\n' :: (b2 ++ ['\n'])) ++ E))) _ (by simp; omega)]
    simp [List.append_assoc]
  rw [hu1, hu2]
  exact ⟨hu12, hu21⟩

/-- Witness for the hypotheses of `upsert_comm_amended`, on the example
document with both headers present. -/
theorem upsert_comm_amended_witness :
    ((upsert ("# Note\n".toList ++ ("## A".toList ++ ("\nold".toList ++
            ('\n' :: ("## B".toList ++ ("\nkeep".toList ++ "\n".toList))))))
          "## A".toList "new".toList).bind fun r =>
        upsert r "## B".toList "x".toList) =
      some ("# Note\n".toList ++ ("## A".toList ++
        (('\n' :: ("new".toList ++ ['\n'])) ++
          ('\n' :: ("## B".toList ++
            (('\n' :: ("x".toList ++ ['\n'])) ++ "\n".toList)))))) ∧
    ((upsert ("# Note\n".toList ++ ("## A".toList ++ ("\nold".toList ++
            ('\n' :: ("## B".toList ++ ("\nkeep".toList ++ "\n".toList))))))
          "## B".toList "x".toList).bind fun r =>
        upsert r "## A".toList "new".toList) =
      some ("# Note\n".toList ++ ("## A".toList ++
        (('\n' :: ("new".toList ++ ['\n'])) ++
          ('\n' :: ("## B".toList ++
            (('\n' :: ("x".toList ++ ['\n'])) ++ "\n".toList)))))) :=
  upsert_comm_amended "# Note\n".toList "\nold".toList "\nkeep".toList
    "\n".toList "## A".toList "## B".toList "new".toList "x".toList
    (by decide) (by decide) (by decide) (by decide) (by decide) (by decide)
    (by decide) (by decide) (by decide) (by decide) (by decide) (by decide)

/-- Witness for the hypotheses of `anchor_segments_amended`. -/
theorem anchor_segments_amended_witness :
    extract_section "#1 a\n#2 b\n#3 c".toList .scan =
      stripL (("#1 a\n#2 b\n#3 c".toList.drop 0).take (5 - 0)) ∧
    extract_section "#1 a\n#2 b\n#3 c".toList .emotion =
      stripL (("#1 a\n#2 b\n#3 c".toList.drop 5).take (10 - 5)) ∧
    extract_section "#1 a\n#2 b\n#3 c".toList .gratitude =
      stripL (("#1 a\n#2 b\n#3 c".toList.drop 10).take
        ("#1 a\n#2 b\n#3 c".toList.length - 10)) ∧
    ("#1 a\n#2 b\n#3 c".toList.drop 0).take (5 - 0) ++
        (("#1 a\n#2 b\n#3 c".toList.drop 5).take (10 - 5) ++
          ("#1 a\n#2 b\n#3 c".toList.drop 10).take
            ("#1 a\n#2 b\n#3 c".toList.length - 10)) =
      "#1 a\n#2 b\n#3 c".toList.drop 0 :=
  anchor_segments_amended "#1 a\n#2 b\n#3 c".toList 0 5 10 (by decide)
    (by decide) (by decide) (by decide) (by decide) (by decide)

end ObsidianAutomation
